import Mathlib

/-! Verification of the go-sitemap-fetcher core (`sitemap_fetcher.go`,
`errors.go`, `sitemap_fetcher_iface.go`) via a shallow embedding in Lean.

Modelling notes:
* Go `*url.URL` values are embedded as the `URL` structure below, covering
  the scheme/host/path/rawQuery/fragment components the fetcher reads and
  writes.  Go's `url.Parse`, `URL.ResolveReference`, `resolvePath` and
  `URL.String` (from `net/url`) are embedded for the hierarchical subset the
  fetcher exercises (no userinfo, no port splitting, no percent-escaping);
  opaque `scheme:rest` URLs are approximated by storing the opaque part in
  `path`, which renders identically.
* External collaborators (the HTTP transport, the `robotstxt` library's
  parser and group matcher, `time.Parse` for a given layout,
  `strconv.ParseFloat`, `http.ParseTime`, gzip compression) are abstracted
  as components of an explicit environment `Env`; the repository's own
  control flow around them is embedded faithfully.
* `context.Context` cancellation is modelled as the never-cancelled context
  (`context.Background()`), which is the regime all the claims below speak
  about; durations are integers in nanoseconds.
* The traversal loop of `Walk` is not structurally terminating (an
  adversarial server can keep producing fresh sitemap locations), so the
  embedding takes a fuel parameter and returns `none` when fuel runs out.
-/

namespace GoSitemap

/-! Character-level string primitives

The embedding re-implements the handful of Go `strings`/`unicode` helpers
it needs on `List Char`, structurally recursive so that every theorem
below can be checked on concrete inputs by kernel reduction. -/

/-- Embeds `unicode.IsSpace` restricted to the ASCII whitespace the fetcher's
inputs contain. -/
def isSpaceChar (c : Char) : Bool :=
  c = ' ' ∨ c = '\t' ∨ c = '\n' ∨ c = '\r' ∨ c = '\x0b' ∨ c = '\x0c'

/-- Embeds `strings.TrimSpace`. -/
def goTrim (s : String) : String :=
  (((s.toList.dropWhile isSpaceChar).reverse.dropWhile isSpaceChar).reverse).asString

def startsWithChars : List Char → List Char → Bool
  | [], _ => true
  | _ :: _, [] => false
  | a :: as, b :: bs => a = b && startsWithChars as bs

/-- Embeds `strings.HasPrefix s pat`. -/
def strStartsWith (s pat : String) : Bool := startsWithChars pat.toList s.toList

/-- Embeds `strings.HasSuffix s pat`. -/
def strEndsWith (s pat : String) : Bool :=
  startsWithChars pat.toList.reverse s.toList.reverse

/-- Does `pat` occur inside the list (`strings.Contains`)? -/
def containsChars (pat : List Char) : List Char → Bool
  | [] => pat.isEmpty
  | c :: rest => startsWithChars pat (c :: rest) || containsChars pat rest

def lowerChar (c : Char) : Char :=
  if 'A' ≤ c ∧ c ≤ 'Z' then Char.ofNat (c.toNat + 32) else c

/-- Embeds `strings.ToLower` (ASCII). -/
def strToLower (s : String) : String := (s.toList.map lowerChar).asString

/-- Split at every `'/'` (`strings.Split s "/"`). -/
def splitSlash : List Char → List (List Char)
  | [] => [[]]
  | c :: rest =>
    if c = '/' then [] :: splitSlash rest
    else
      match splitSlash rest with
      | [] => [[c]]
      | s :: ss => (c :: s) :: ss

/-- Embeds `strings.Join segs "/"`. -/
def joinSlash : List (List Char) → List Char
  | [] => []
  | [s] => s
  | s :: rest => s ++ '/' :: joinSlash rest

/-! URL model (net/url subset) -/

structure URL where
  scheme : String
  host : String
  path : String
  rawQuery : String
  fragment : String
deriving DecidableEq, Repr

/-- Embeds `net/url.URL.String` for the subset above (no Opaque/User). -/
def URL.render (u : URL) : String :=
  (if u.scheme ≠ "" then u.scheme ++ ":" else "") ++
  (if u.scheme ≠ "" ∨ u.host ≠ "" then
    (if u.host ≠ "" ∨ u.path ≠ "" then "//" else "") ++ u.host
   else "") ++
  (if u.path ≠ "" ∧ ¬ strStartsWith u.path "/" ∧ u.host ≠ "" then "/" else "") ++
  u.path ++
  (if u.rawQuery ≠ "" then "?" ++ u.rawQuery else "") ++
  (if u.fragment ≠ "" then "#" ++ u.fragment else "")

/-- Embeds `canonicalURLKey`: serialize with the fragment removed. -/
def canonicalURLKey (u : URL) : String :=
  URL.render { u with fragment := "" }

/-! ### Go `net/url` path resolution (`resolvePath`) -/

/-- Computes `base[:strings.LastIndex(base, "/")+1]` on character lists. -/
def dropAfterLastSlash (l : List Char) : List Char :=
  ((l.reverse.dropWhile (fun c => c ≠ '/'))).reverse

/-- Dot-segment removal pass of `net/url.resolvePath`.
The accumulator holds already-emitted segments in reverse order. -/
def removeDotSegs : List (List Char) → List (List Char) → List (List Char)
  | acc, [] => acc.reverse
  | acc, ['.'] :: rest => removeDotSegs acc rest
  | acc, ['.', '.'] :: rest => removeDotSegs (acc.drop 1) rest
  | acc, s :: rest => removeDotSegs (s :: acc) rest

/-- Embeds `net/url.resolvePath` (character-list core). -/
def resolvePathChars (base ref : List Char) : List Char :=
  let full :=
    if ref = [] then base
    else if ref.headD ' ' ≠ '/' then dropAfterLastSlash base ++ ref
    else ref
  if full = [] then []
  else
    let segs := splitSlash full
    let segs1 := removeDotSegs [] segs
    let segs2 :=
      if segs.getLast? = some ['.'] ∨ segs.getLast? = some ['.', '.'] then segs1 ++ [[]]
      else segs1
    let joined := joinSlash segs2
    '/' :: (if joined.headD ' ' = '/' then joined.drop 1 else joined)

/-- Embeds `net/url.resolvePath`. -/
def resolvePath (base ref : String) : String :=
  (resolvePathChars base.toList ref.toList).asString

/-- Embeds `net/url.URL.ResolveReference` for the hierarchical subset. -/
def URL.resolveReference (u ref : URL) : URL :=
  let scheme := if ref.scheme = "" then u.scheme else ref.scheme
  if ref.scheme ≠ "" ∨ ref.host ≠ "" then
    { ref with scheme := scheme, path := resolvePath ref.path "" }
  else
    let qf : String × String :=
      if ref.path = "" ∧ ref.rawQuery = "" then
        (u.rawQuery, if ref.fragment = "" then u.fragment else ref.fragment)
      else (ref.rawQuery, ref.fragment)
    { scheme := scheme, host := u.host, path := resolvePath u.path ref.path,
      rawQuery := qf.1, fragment := qf.2 }

/-! ### Go `net/url.Parse` subset -/

def isAlphaChar (c : Char) : Bool :=
  ('a' ≤ c ∧ c ≤ 'z') ∨ ('A' ≤ c ∧ c ≤ 'Z')

def isSchemeExtraChar (c : Char) : Bool :=
  c.isDigit ∨ c = '+' ∨ c = '-' ∨ c = '.'

/-- Embeds `net/url.getScheme`: `.error` means a parse error
("missing protocol scheme"), `.ok none` means no scheme present,
`.ok (some (scheme, rest))` splits off the scheme. -/
def getSchemeAux (seen : List Char) : List Char → Except Unit (Option (List Char × List Char))
  | [] => .ok none
  | c :: rest =>
    if isAlphaChar c then getSchemeAux (seen ++ [c]) rest
    else if isSchemeExtraChar c then
      if seen = [] then .ok none else getSchemeAux (seen ++ [c]) rest
    else if c = ':' then
      if seen = [] then .error () else .ok (some (seen, rest))
    else .ok none

/-- Split a character list at the first occurrence of `c`
(the separator is dropped; absent separator keeps everything on the left). -/
def cutAtChar (c : Char) : List Char → List Char × List Char
  | [] => ([], [])
  | x :: xs =>
    if x = c then ([], xs)
    else
      let p := cutAtChar c xs
      (x :: p.1, p.2)

/-- Embeds the subset of `net/url.Parse` the fetcher exercises.
`none` models a parse error (control characters, `:` with empty scheme,
a colon in the first segment of a schemeless relative reference). -/
def parseURL (raw : String) : Option URL :=
  let l := raw.toList
  if l.any (fun c => c.toNat < 0x20 ∨ c.toNat = 0x7f) then none
  else
    let cutFrag := cutAtChar '#' l
    let beforeFrag := cutFrag.1
    let frag := cutFrag.2
    match getSchemeAux [] beforeFrag with
    | .error _ => none
    | .ok schemeRes =>
      let sr : String × List Char :=
        match schemeRes with
        | some p => (strToLower p.1.asString, p.2)
        | none => ("", beforeFrag)
      let scheme := sr.1
      let rest := sr.2
      if startsWithChars ['/', '/'] rest then
        let rest2 := rest.drop 2
        let sp := rest2.span (fun c => ¬ (c = '/' ∨ c = '?'))
        let pq := cutAtChar '?' sp.2
        some ⟨scheme, sp.1.asString, pq.1.asString, pq.2.asString, frag.asString⟩
      else if scheme ≠ "" ∧ rest ≠ [] ∧ rest.headD ' ' ≠ '/' then
        let pq := cutAtChar '?' rest
        some ⟨scheme, "", pq.1.asString, pq.2.asString, frag.asString⟩
      else
        let firstSeg := rest.takeWhile (fun c => c ≠ '/')
        if scheme = "" ∧ firstSeg.contains ':' then none
        else
          let pq := cutAtChar '?' rest
          some ⟨scheme, "", pq.1.asString, pq.2.asString, frag.asString⟩

/-! Errors (errors.go) -/

inductive WalkError where
  | nilYield
  | invalidURL
  | noSitemaps (base : URL)
  | httpStatus (loc : URL) (statusCode : Nat)
  | netError (loc : URL)
  | sitemapParse (loc : URL)
  | maxDepth (limit : Nat) (loc : URL)
  | maxSitemaps (limit : Nat)
  | maxURLs (limit : Nat)
  | yieldErr
deriving DecidableEq, Repr

/-! URL canonicalizer & resolver (sitemap_fetcher.go) -/

/-- Embeds `normalizeInputURL` (the `website == nil` guard is not
representable: the embedding has no nil pointers). -/
def normalizeInputURL (website : URL) : Except WalkError (URL × URL) :=
  let input := if website.scheme = "" then { website with scheme := "https" } else website
  if input.host = "" then .error .invalidURL
  else
    let input := { input with fragment := "" }
    .ok (input, ⟨input.scheme, input.host, "", "", ""⟩)

/-- Embeds `isLikelySitemapURL` (non-nil receiver). -/
def isLikelySitemapURL (u : URL) : Bool :=
  let path := strToLower u.path
  strEndsWith path ".xml" || strEndsWith path ".xml.gz"

/-- Embeds `resolveLocation`. -/
def resolveLocation (base : URL) (loc : String) : Except Unit URL :=
  let trimmed := goTrim loc
  if trimmed = "" then .error ()
  else
    match parseURL trimmed with
    | none => .error ()
    | some parsed =>
      if parsed.scheme ≠ "" then .ok { parsed with fragment := "" }
      else .ok { base.resolveReference parsed with fragment := "" }

def defaultSitemapPaths : List String :=
  ["/sitemap.xml", "/sitemap_index.xml", "/sitemap-index.xml",
   "/sitemap.xml.gz", "/sitemap_index.xml.gz", "/sitemap-index.xml.gz"]

/-- Embeds `defaultSitemaps`. -/
def defaultSitemaps (base : URL) : List URL :=
  defaultSitemapPaths.map (fun p => base.resolveReference ⟨"", "", p, "", ""⟩)

/-! Records, items, tasks -/

structure XmlURLEntry where
  loc : String
  lastMod : String
  changeFreq : String
  priority : String
deriving DecidableEq, Repr

structure XmlSitemapEntry where
  loc : String
  lastMod : String
deriving DecidableEq, Repr

/-- One record emitted by the streaming XML decoder (`parseSitemap`
tokenizes the document and calls `onURL` / `onSitemap` per element; the
embedding abstracts XML tokenization and presents a document as the list
of records in document order). -/
inductive SitemapRecord where
  | url (e : XmlURLEntry)
  | sitemap (e : XmlSitemapEntry)
deriving DecidableEq, Repr

/-- Embeds `Item` (sitemap_fetcher_iface.go).  `time.Time` values are abstracted
as `Int` instants and `float64` priorities as `Rat` (only construction and
flow matter to the fetcher; the numeric value is opaque to it). -/
structure Item where
  loc : URL
  lastMod : Option Int
  changeFreq : String
  priority : Option Rat
  sitemap : URL
deriving DecidableEq, Repr

/-- Embeds `sitemapTask`. -/
structure SitemapTask where
  loc : URL
  depth : Nat
  allowMissing : Bool
deriving DecidableEq, Repr

/-- Embeds `robotsRules` (the `robotstxt.Group` is abstracted as its `Test`
function on path+query strings). -/
structure RobotsRulesM where
  group : Option (String → Bool)
  sitemaps : List URL

/-! Configuration -/

/-- Embeds `Options` (HTTPClient/Logger/PerRequestTimeout resourcing is part of
the abstracted transport; include/exclude regexps are abstracted as their
`MatchString` functions, with no nil entries since the code skips nils). -/
structure Options where
  maxDepth : Nat
  maxSitemaps : Nat
  maxURLs : Nat
  allowNon200 : Bool
  ignoreRobots : Bool
  userAgent : String
  includeRe : List (String → Bool)
  excludeRe : List (String → Bool)

/-! Environment: the abstracted outside world -/

/-- Parsed robots.txt content, as the `robotstxt` library exposes it:
group selection by user agent, plus declared sitemap URL strings. -/
structure RobotsData where
  findGroup : String → Option (String → Bool)
  sitemaps : List String

/-- Outcome of the robots.txt HTTP round trip for an origin. -/
inductive RobotsResp where
  | netErr
  | resp (status : Nat) (parsed : Option RobotsData)

structure FetchResp where
  status : Nat
  retryAfter : String
  body : List SitemapRecord

/-- Outcome of one sitemap HTTP request (per canonical URL and attempt
number within a single `fetchSitemap` call). -/
inductive FetchOutcome where
  | netErr
  | resp (r : FetchResp)

structure Env where
  robots : String → RobotsResp
  fetch : String → Nat → FetchOutcome
  reqErr : String → Bool
  httpDate : String → Option Int
  now : Int
  yieldOk : Item → Bool
  timeParse : String → String → Option Int
  floatParse : String → Option Rat

/-! Value parsing (`parseTimeValue`, `parsePriority`) -/

def rfc3339NanoLayout : String := "2006-01-02T15:04:05.999999999Z07:00"
def rfc3339Layout : String := "2006-01-02T15:04:05Z07:00"
def rfc1123Layout : String := "Mon, 02 Jan 2006 15:04:05 MST"
def rfc1123ZLayout : String := "Mon, 02 Jan 2006 15:04:05 -0700"

/-- The layout list of `parseTimeValue`, in source order. -/
def timeLayouts : List String :=
  [rfc3339NanoLayout, rfc3339Layout, "2006-01-02", "2006-01-02T15:04:05",
   rfc1123Layout, rfc1123ZLayout]

def tryLayoutsAux (tp : String → String → Option Int) (s : String) :
    List String → Option Int
  | [] => none
  | l :: ls =>
    match tp l s with
    | some t => some t
    | none => tryLayoutsAux tp s ls

/-- Embeds `parseTimeValue`; `tp` abstracts `time.Parse layout value`. -/
def parseTimeValue (tp : String → String → Option Int) (value : String) : Option Int :=
  let trimmed := goTrim value
  if trimmed = "" then none
  else tryLayoutsAux tp trimmed timeLayouts

/-- Embeds `parsePriority`; `pf` abstracts `strconv.ParseFloat _ 64`. -/
def parsePriority (pf : String → Option Rat) (value : String) : Option Rat :=
  let trimmed := goTrim value
  if trimmed = "" then none
  else pf trimmed

/-! Retry/backoff (`retryAfterDelay`, `fetchSitemap`) -/

def maxRetryAttempts : Nat := 3
def defaultRetryDelay : Int := 5000000000
def maxRetryDelay : Int := 30000000000

/-- Embeds `strconv.Atoi` (sign plus decimal digits; the embedding's
integers are unbounded, so the int64 range check is dropped). -/
def goAtoi (s : String) : Option Int :=
  let l := s.toList
  let sd : Bool × List Char :=
    match l with
    | '+' :: rest => (false, rest)
    | '-' :: rest => (true, rest)
    | l => (false, l)
  if sd.2 = [] ∨ ¬ sd.2.all Char.isDigit then none
  else
    let n : Int := sd.2.foldl (fun acc c => acc * 10 + (c.toNat - '0'.toNat : Nat)) 0
    some (if sd.1 then -n else n)

/-- Embeds `retryAfterDelay`; `header` is the `Retry-After` value (`""`
when absent), `httpDate` abstracts `http.ParseTime`, `now - t` differences
model `time.Until`. -/
def retryAfterDelay (header : String) (now : Int) (httpDate : String → Option Int) : Int :=
  let value := goTrim header
  if value = "" then 0
  else
    match goAtoi value with
    | some seconds => if seconds ≤ 0 then 0 else seconds * 1000000000
    | none =>
      match httpDate value with
      | some t => t - now
      | none => 0

/-- The delay actually slept before a 429 retry: the non-positive delay is
replaced by `defaultRetryDelay`, then clamped to `maxRetryDelay`
(lines `if delay <= 0 {...}; if delay > maxRetryDelay {...}`). -/
def clampRetryDelay (d : Int) : Int :=
  let d := if d ≤ 0 then defaultRetryDelay else d
  if d > maxRetryDelay then maxRetryDelay else d

/-- Result of a `fetchSitemap` call: the Go return value plus the request
count and the list of backoff sleeps performed, for trace reasoning.
`.ok none` models the `nil, nil` "skip this task" return. -/
structure FetchOut where
  result : Except WalkError (Option (List SitemapRecord))
  requests : Nat
  sleeps : List Int
deriving Repr

/-- The retry loop body of `fetchSitemap`: `attempt` is the Go loop
variable, `rem` the remaining loop iterations (`maxRetryAttempts + 1 -
attempt`); the `rem = 0` base case is the unreachable post-loop `429`
return at the end of `fetchSitemap`. -/
def fetchSitemapAux (env : Env) (opts : Options) (loc : URL) (allowMissing : Bool) :
    Nat → Nat → FetchOut
  | _, 0 => ⟨.error (.httpStatus loc 429), 0, []⟩
  | attempt, rem + 1 =>
    let key := canonicalURLKey loc
    if env.reqErr key then ⟨.error (.netError loc), 0, []⟩
    else
      match env.fetch key attempt with
      | .netErr => ⟨.error (.netError loc), 1, []⟩
      | .resp r =>
        if r.status = 429 then
          let delay := retryAfterDelay r.retryAfter env.now env.httpDate
          if attempt = maxRetryAttempts then
            ⟨.error (.httpStatus loc 429), 1, []⟩
          else
            let d := clampRetryDelay delay
            let out := fetchSitemapAux env opts loc allowMissing (attempt + 1) rem
            ⟨out.result, out.requests + 1, d :: out.sleeps⟩
        else if r.status < 200 ∨ r.status ≥ 300 then
          if opts.allowNon200 then ⟨.ok none, 1, []⟩
          else if allowMissing ∧ r.status = 404 then ⟨.ok none, 1, []⟩
          else ⟨.error (.httpStatus loc r.status), 1, []⟩
        else ⟨.ok (some r.body), 1, []⟩

/-- Embeds `fetchSitemap` (the non-cancelled-context executions). -/
def fetchSitemapGo (env : Env) (opts : Options) (loc : URL) (allowMissing : Bool) : FetchOut :=
  fetchSitemapAux env opts loc allowMissing 0 (maxRetryAttempts + 1)

/-! Transport decoder (`wrapReader`), byte level -/

/-- Do the first two bytes match the gzip magic number `0x1f 0x8b`?
(`reader.Peek(2)` succeeding with a matching prefix.) -/
def gzipMagic : List Nat → Bool
  | b0 :: b1 :: _ => b0 = 0x1f ∧ b1 = 0x8b
  | _ => false

/-- Embeds `wrapReader` at the byte level: `gunzip` abstracts the gzip
decompressor (`none` = `gzip.NewReader` error, making `wrapReader` fail),
`contentType` stands for the response headers, which the function receives
but never consults; a passthrough returns the buffered stream, peeked
bytes included exactly once. -/
def wrapReader (gunzip : List Nat → Option (List Nat)) (_contentType : String)
    (body : List Nat) : Option (List Nat) :=
  if gzipMagic body then gunzip body else some body

/-! Filters (`shouldInclude`) -/

/-- Embeds `shouldInclude` (non-nil receiver URL; nil regexps are not
representable — the code skips them). -/
def shouldInclude (opts : Options) (u : URL) : Bool :=
  let candidate := u.render
  (opts.includeRe.isEmpty || opts.includeRe.any (fun re => re candidate)) &&
  !(opts.excludeRe.any (fun re => re candidate))

/-! Robots policy cache (`getRobots`, `allowedByRobots`) -/

def emptyRules : RobotsRulesM := ⟨none, []⟩

def robotsKey (base : URL) : String := base.scheme ++ "://" ++ base.host

def robotsTxtURL (base : URL) : URL :=
  base.resolveReference ⟨"", "", "/robots.txt", "", ""⟩

def lookupCache (cache : List (String × RobotsRulesM)) (k : String) : Option RobotsRulesM :=
  (cache.find? (fun p => p.1 = k)).map Prod.snd

/-- The declared-sitemap resolution loop inside `getRobots`. -/
def robotsSitemapList (base : URL) (locs : List String) : List URL :=
  locs.filterMap (fun loc =>
    (parseURL (goTrim loc)).map (fun p =>
      if p.scheme ≠ "" then p else base.resolveReference p))

/-! Traversal state -/

structure WalkState where
  queue : List SitemapTask
  seen : List String
  robotsCache : List (String × RobotsRulesM)
  sitemapCount : Nat
  urlCount : Nat
  items : List Item
  fetchLog : List String
  robotsLog : List String

def initState (queue : List SitemapTask) : WalkState :=
  ⟨queue, [], [], 0, 0, [], [], []⟩

/-- Embeds `getRobots`.  `fetchLog` is untouched; `robotsLog` records each
actual robots.txt round trip (cache misses that reach `client.Do`). -/
def getRobotsM (env : Env) (opts : Options) (base : URL) (st : WalkState) :
    Except WalkError RobotsRulesM × WalkState :=
  let key := robotsKey base
  match lookupCache st.robotsCache key with
  | some rules => (.ok rules, st)
  | none =>
    if env.reqErr (canonicalURLKey (robotsTxtURL base)) then
      (.error (.netError (robotsTxtURL base)), st)
    else
      let st := { st with robotsLog := st.robotsLog ++ [key] }
      let cacheOk : RobotsRulesM → Except WalkError RobotsRulesM × WalkState :=
        fun r => (.ok r, { st with robotsCache := (key, r) :: st.robotsCache })
      match env.robots key with
      | .netErr => cacheOk emptyRules
      | .resp status parsed =>
        if status ≠ 200 then cacheOk emptyRules
        else
          match parsed with
          | none => cacheOk emptyRules
          | some d => cacheOk ⟨d.findGroup opts.userAgent, robotsSitemapList base d.sitemaps⟩

/-- Embeds `allowedByRobots`: Go returns `(bool, error)`; the error
component is carried to state faithfully that every return is `nil`. -/
def allowedByRobotsM (env : Env) (opts : Options) (loc : URL) (st : WalkState) :
    (Bool × Option WalkError) × WalkState :=
  let base : URL := ⟨loc.scheme, loc.host, "", "", ""⟩
  match getRobotsM env opts base st with
  | (.error _, st) => ((true, none), st)
  | (.ok rules, st) =>
    match rules.group with
    | none => ((true, none), st)
    | some g =>
      let path := loc.path ++ (if loc.rawQuery ≠ "" then "?" ++ loc.rawQuery else "")
      ((g path, none), st)

/-! Seeding (`initialSitemaps`) -/

/-- Embeds `initialSitemaps`. -/
def initialSitemaps (input base : URL) (robots : Option RobotsRulesM) : List SitemapTask :=
  if isLikelySitemapURL input then [⟨input, 0, false⟩]
  else
    match robots with
    | some r =>
      if 0 < r.sitemaps.length then r.sitemaps.map (fun loc => ⟨loc, 0, false⟩)
      else (defaultSitemaps base).map (fun loc => ⟨loc, 0, true⟩)
    | none => (defaultSitemaps base).map (fun loc => ⟨loc, 0, true⟩)

/-! The per-record callbacks of `Walk` -/

/-- The `Item` literal built in the URL-record callback. -/
def mkItem (env : Env) (current : SitemapTask) (loc : URL) (e : XmlURLEntry) : Item :=
  { loc := loc
    lastMod := parseTimeValue env.timeParse e.lastMod
    changeFreq := goTrim e.changeFreq
    priority := parsePriority env.floatParse e.priority
    sitemap := current.loc }

/-- The URL-record callback body (first closure passed to `parseSitemap`):
resolve against the containing task's location, robots, filters, MaxURLs
boundary, yield.  `items` records every yield invocation. -/
def processURLEntry (env : Env) (opts : Options) (current : SitemapTask)
    (e : XmlURLEntry) (st : WalkState) : Except WalkError Unit × WalkState :=
  match resolveLocation current.loc e.loc with
  | .error _ => (.ok (), st)
  | .ok loc =>
    let step : (Bool × Option WalkError) × WalkState :=
      if opts.ignoreRobots then ((true, none), st)
      else allowedByRobotsM env opts loc st
    match step with
    | ((_, some er), st) => (.error er, st)
    | ((allowed, none), st) =>
      if ¬ allowed then (.ok (), st)
      else if ¬ shouldInclude opts loc then (.ok (), st)
      else if opts.maxURLs > 0 ∧ st.urlCount ≥ opts.maxURLs then
        (.error (.maxURLs opts.maxURLs), st)
      else
        let item := mkItem env current loc e
        let st := { st with items := st.items ++ [item] }
        if env.yieldOk item then (.ok (), { st with urlCount := st.urlCount + 1 })
        else (.error .yieldErr, st)

/-- The sitemap-record callback body (second closure): resolve against the
containing task's location and enqueue at depth + 1. -/
def processSitemapEntry (current : SitemapTask) (e : XmlSitemapEntry)
    (st : WalkState) : WalkState :=
  match resolveLocation current.loc e.loc with
  | .error _ => st
  | .ok loc => { st with queue := st.queue ++ [⟨loc, current.depth + 1, false⟩] }

/-- The record-dispatch loop of `parseSitemap` driving the two callbacks;
a callback error stops decoding and propagates. -/
def processRecords (env : Env) (opts : Options) (current : SitemapTask) :
    List SitemapRecord → WalkState → Except WalkError Unit × WalkState
  | [], st => (.ok (), st)
  | .url e :: rs, st =>
    match processURLEntry env opts current e st with
    | (.error er, st) => (.error er, st)
    | (.ok _, st) => processRecords env opts current rs st
  | .sitemap e :: rs, st => processRecords env opts current rs (processSitemapEntry current e st)

/-- The error classification after `parseSitemap` returns (lines 194-207):
MaxURLs and yield errors pass through, everything else is wrapped as a
parse failure attributed to the task's location. -/
def classifyParseError (current : SitemapTask) : WalkError → WalkError
  | .maxURLs n => .maxURLs n
  | .yieldErr => .yieldErr
  | _ => .sitemapParse current.loc

/-! The traversal loop of `Walk` -/

/-- Outcome of one iteration of the `for len(queue) > 0` loop of `Walk`:
`.halt` is a `return` from inside the loop, `.next` a `continue` (or the
fall-through to the next iteration), `.finished` the loop guard failing. -/
inductive StepOut where
  | halt (res : Except WalkError Unit) (st : WalkState)
  | next (st : WalkState)
  | finished (st : WalkState)

/-- One iteration of the queue-draining loop of `Walk`. -/
def walkStep (env : Env) (opts : Options) (st : WalkState) : StepOut :=
  match st.queue with
  | [] => .finished st
  | current :: rest =>
    if opts.maxDepth > 0 ∧ current.depth > opts.maxDepth then
      .halt (.error (.maxDepth opts.maxDepth current.loc)) st
    else
      let key := canonicalURLKey current.loc
      if key ∈ st.seen then .next { st with queue := rest }
      else
        let st1 := { st with queue := rest, seen := key :: st.seen }
        let step : (Bool × Option WalkError) × WalkState :=
          if opts.ignoreRobots then ((true, none), st1)
          else allowedByRobotsM env opts current.loc st1
        match step with
        | ((_, some er), st2) => .halt (.error er) st2
        | ((allowed, none), st2) =>
          if ¬ allowed then .next st2
          else if opts.maxSitemaps > 0 ∧ st2.sitemapCount ≥ opts.maxSitemaps then
            .halt (.error (.maxSitemaps opts.maxSitemaps)) st2
          else
            let st3 := { st2 with sitemapCount := st2.sitemapCount + 1,
                                  fetchLog := st2.fetchLog ++ [key] }
            match (fetchSitemapGo env opts current.loc current.allowMissing).result with
            | .error er => .halt (.error er) st3
            | .ok none => .next st3
            | .ok (some records) =>
              match processRecords env opts current records st3 with
              | (.error er, st4) => .halt (.error (classifyParseError current er)) st4
              | (.ok _, st4) => .next st4

/-- The queue-draining loop of `Walk`.  Fuel-indexed: `none` means the
fuel ran out, `some (res, st)` that the loop finished with Go result `res`
(`.ok ()` = `return nil`) in final state `st`. -/
def walkLoop (env : Env) (opts : Options) :
    Nat → WalkState → Option (Except WalkError Unit × WalkState)
  | 0, _ => none
  | fuel + 1, st =>
    match walkStep env opts st with
    | .finished st => some (.ok (), st)
    | .halt res st => some (res, st)
    | .next st => walkLoop env opts fuel st

/-- Embeds `Walk` (non-nil yield, background context): normalization,
the conditional robots-discovery prefetch, seeding, then the loop. -/
def walkRun (env : Env) (opts : Options) (website : URL) (fuel : Nat) :
    Option (Except WalkError Unit × WalkState) :=
  match normalizeInputURL website with
  | .error er => some (.error er, initState [])
  | .ok (input, base) =>
    let pre : Option RobotsRulesM × WalkState :=
      if ¬ opts.ignoreRobots ∧ ¬ isLikelySitemapURL input then
        match getRobotsM env opts base (initState []) with
        | (.ok r, st) => (some r, st)
        | (.error _, st) => (none, st)
      else (none, initState [])
    let initial := initialSitemaps input base pre.1
    if initial.isEmpty then some (.error (.noSitemaps base), pre.2)
    else walkLoop env opts fuel { pre.2 with queue := initial }

/-! Derived notions used in the statements -/

/-- An URL entry of a document at `base` that reaches the MaxURLs boundary
check when robots is ignored: its location resolves and passes the
include/exclude filters. -/
def isYieldable (opts : Options) (base : URL) (e : XmlURLEntry) : Bool :=
  match resolveLocation base e.loc with
  | .ok l => shouldInclude opts l
  | .error _ => false

/-- Number of yieldable URL entries of a record list. -/
def yieldableCount (opts : Options) (base : URL) : List SitemapRecord → Nat
  | [] => 0
  | .url e :: rs => (if isYieldable opts base e then 1 else 0) + yieldableCount opts base rs
  | .sitemap _ :: rs => yieldableCount opts base rs

/-- Is the walk outcome the `ErrNoSitemaps` error? -/
def isNoSitemapsRes : Except WalkError Unit → Bool
  | .error (.noSitemaps _) => true
  | _ => false

/-- A failed robots.txt round trip as the claims classify it: transport
error, non-200 status, or `robotstxt` parse failure. -/
def robotsFailure : RobotsResp → Bool
  | .netErr => true
  | .resp status parsed => status ≠ 200 || parsed.isNone

/-! Concrete scenarios (used as witnesses / counterexamples) -/

/-- Literal substring matcher, standing for `regexp.MustCompile(pat)` on a
pattern with no metacharacters. -/
def strContains (pat s : String) : Bool := containsChars pat.toList s.toList

/-- Inert environment: every transport interaction fails. -/
def baseEnv : Env :=
  ⟨fun _ => .netErr, fun _ _ => .netErr, fun _ => false, fun _ => none, 0,
   fun _ => true, fun _ _ => none, fun _ => none⟩

/-- Zero-valued options, as `New(Options{})` resolves them. -/
def defaultOpts : Options := ⟨0, 0, 0, false, false, "UA", [], []⟩

/-- Environment where every sitemap fetch answers 200 with body `doc` and
robots.txt is unreachable. -/
def singleDocEnv (doc : List SitemapRecord) : Env :=
  { baseEnv with fetch := fun _ _ => .resp ⟨200, "", doc⟩ }

/-- The `robotstxt` group of the C1 scenario: disallows `/sitemap.xml`. -/
def c1Group : String → Bool := fun path => path != "/sitemap.xml"

/-- C1 scenario: origin `https://example.com` serves a robots.txt whose
matched group disallows exactly `/sitemap.xml`. -/
def c1Env : Env :=
  { baseEnv with
    robots := fun key =>
      if key = "https://example.com" then .resp 200 (some ⟨fun _ => some c1Group, []⟩)
      else .resp 404 none }

def c1Input : URL := ⟨"https", "example.com", "/sitemap.xml", "", ""⟩

/-- C2 witness scenario: two yieldable URL entries. -/
def c2Doc : List SitemapRecord := [.url ⟨"/one", "", "", ""⟩, .url ⟨"/two", "", "", ""⟩]

def c2Opts : Options := { defaultOpts with maxURLs := 1, ignoreRobots := true }

/-- C3 witness scenario: every attempt rate-limited, with a positive
integer `Retry-After`, a non-positive one, one above the ceiling, and an
absent one. -/
def c3Env : Env :=
  { baseEnv with
    fetch := fun _ attempt =>
      .resp ⟨429, if attempt = 0 then "7" else if attempt = 1 then "0"
                  else if attempt = 2 then "120" else "", []⟩ }

/-- C4 witness scenario: a sitemap index that references itself. -/
def c4Env : Env := singleDocEnv [.sitemap ⟨"/sitemap.xml", ""⟩]

def ignoreRobotsOpts : Options := { defaultOpts with ignoreRobots := true }

/-- C5 witness scenario: a sitemap at `/a/sitemap.xml` whose only entry is
the relative location `page`. -/
def c5Env : Env := singleDocEnv [.url ⟨"page", "", "", ""⟩]

def c5Input : URL := ⟨"https", "h", "/a/sitemap.xml", "", ""⟩

/-- C6 witness codec: compression prepends the gzip magic bytes. -/
def c6Gunzip : List Nat → Option (List Nat)
  | 0x1f :: 0x8b :: rest => some rest
  | _ => none

/-- C7 witness scenario: robots.txt answers 503 for every origin. -/
def c7Env : Env := { baseEnv with robots := fun _ => .resp 503 none }

/-- C8 witness scenario: include "keep", exclude "skip", a document with
`/keep` and `/skip` entries. -/
def c8Env : Env := singleDocEnv [.url ⟨"/keep", "", "", ""⟩, .url ⟨"/skip", "", "", ""⟩]

def c8Opts : Options :=
  { defaultOpts with
    ignoreRobots := true
    includeRe := [strContains "keep"]
    excludeRe := [strContains "skip"] }

def c8Input : URL := ⟨"https", "e.com", "/sitemap.xml", "", ""⟩

/-- C9 witness layout parser: fails on the first two layouts, succeeds on
the bare-date layout for one specific value. -/
def c9Tp (layout value : String) : Option Int :=
  if layout = "2006-01-02" ∧ value = "2024-01-02" then some 1704153600000000000 else none

def c9Pf (value : String) : Option Rat := if value = "7.5" then some (15 / 2 : Rat) else none

/-! Helper lemmas: state preservation -/

theorem getRobotsM_state (env : Env) (opts : Options) (base : URL) (st : WalkState) :
    (getRobotsM env opts base st).2.queue = st.queue ∧
    (getRobotsM env opts base st).2.seen = st.seen ∧
    (getRobotsM env opts base st).2.sitemapCount = st.sitemapCount ∧
    (getRobotsM env opts base st).2.urlCount = st.urlCount ∧
    (getRobotsM env opts base st).2.items = st.items ∧
    (getRobotsM env opts base st).2.fetchLog = st.fetchLog := by
  unfold getRobotsM
  cases h : lookupCache st.robotsCache (robotsKey base) with
  | some rules => simp [h]
  | none =>
    simp only [h]
    split
    · simp
    · cases hr : env.robots (robotsKey base) with
      | netErr => simp [hr]
      | resp status parsed =>
        simp only [hr]
        split
        · simp
        · cases parsed <;> simp

theorem allowedByRobotsM_snd (env : Env) (opts : Options) (loc : URL) (st : WalkState) :
    (allowedByRobotsM env opts loc st).2
      = (getRobotsM env opts ⟨loc.scheme, loc.host, "", "", ""⟩ st).2 ∧
    (allowedByRobotsM env opts loc st).1.2 = none := by
  unfold allowedByRobotsM
  cases hg : getRobotsM env opts ⟨loc.scheme, loc.host, "", "", ""⟩ st with
  | mk res st2 =>
    simp only [hg]
    cases res with
    | error e => simp
    | ok rules => cases hgr : rules.group <;> simp [hgr]

theorem allowedByRobotsM_spec (env : Env) (opts : Options) (loc : URL) (st : WalkState) :
    (allowedByRobotsM env opts loc st).1.2 = none ∧
    (allowedByRobotsM env opts loc st).2.queue = st.queue ∧
    (allowedByRobotsM env opts loc st).2.seen = st.seen ∧
    (allowedByRobotsM env opts loc st).2.sitemapCount = st.sitemapCount ∧
    (allowedByRobotsM env opts loc st).2.urlCount = st.urlCount ∧
    (allowedByRobotsM env opts loc st).2.items = st.items ∧
    (allowedByRobotsM env opts loc st).2.fetchLog = st.fetchLog := by
  obtain ⟨h2, h1⟩ := allowedByRobotsM_snd env opts loc st
  have h := getRobotsM_state env opts ⟨loc.scheme, loc.host, "", "", ""⟩ st
  rw [h2]
  exact ⟨h1, h.1, h.2.1, h.2.2.1, h.2.2.2.1, h.2.2.2.2.1, h.2.2.2.2.2⟩

theorem processURLEntry_pres (env : Env) (opts : Options) (current : SitemapTask)
    (e : XmlURLEntry) (st : WalkState) :
    (processURLEntry env opts current e st).2.seen = st.seen ∧
    (processURLEntry env opts current e st).2.fetchLog = st.fetchLog := by
  unfold processURLEntry
  cases hre : resolveLocation current.loc e.loc with
  | error u => simp
  | ok loc =>
    simp only []
    by_cases hir : opts.ignoreRobots
    · simp only [hir, if_true]
      repeat' split
      all_goals simp
    · simp only [hir, if_false, Bool.false_eq_true]
      have hs := allowedByRobotsM_spec env opts loc st
      cases hg : allowedByRobotsM env opts loc st with
      | mk br st2 =>
        rw [hg] at hs
        obtain ⟨hnone, _, hseen, _, _, _, hlog⟩ := hs
        cases br with
        | mk b oe =>
          simp only at hnone
          subst hnone
          simp only []
          repeat' split
          all_goals simp_all

theorem processSitemapEntry_pres (current : SitemapTask) (e : XmlSitemapEntry)
    (st : WalkState) :
    (processSitemapEntry current e st).seen = st.seen ∧
    (processSitemapEntry current e st).fetchLog = st.fetchLog ∧
    (processSitemapEntry current e st).urlCount = st.urlCount ∧
    (processSitemapEntry current e st).items = st.items := by
  unfold processSitemapEntry
  cases resolveLocation current.loc e.loc <;> simp

/-- The state carried by a step outcome. -/
def StepOut.state : StepOut → WalkState
  | .halt _ st => st
  | .next st => st
  | .finished st => st

/-- The fetched-at-most-once invariant: no canonical key was fetched
twice, and every fetched key is already in the seen set. -/
def fetchInv (st : WalkState) : Prop :=
  st.fetchLog.Nodup ∧ ∀ k ∈ st.fetchLog, k ∈ st.seen

theorem processRecords_pres (env : Env) (opts : Options) (current : SitemapTask) :
    ∀ (rs : List SitemapRecord) (st : WalkState),
    (processRecords env opts current rs st).2.seen = st.seen ∧
    (processRecords env opts current rs st).2.fetchLog = st.fetchLog := by
  intro rs
  induction rs with
  | nil => intro st; simp [processRecords]
  | cons r rest ih =>
    intro st
    cases r with
    | url e =>
      have hu := processURLEntry_pres env opts current e st
      unfold processRecords
      cases hp : processURLEntry env opts current e st with
      | mk res st2 =>
        rw [hp] at hu
        cases res with
        | error er => simpa using hu
        | ok u =>
          simp only []
          have h2 := ih st2
          exact ⟨h2.1.trans (by simpa using hu.1), h2.2.trans (by simpa using hu.2)⟩
    | sitemap e =>
      have hs := processSitemapEntry_pres current e st
      unfold processRecords
      have := ih (processSitemapEntry current e st)
      constructor
      · rw [this.1, hs.1]
      · rw [this.2, hs.2.1]

/-- How one loop iteration touches the seen set and the fetch log: either
nothing changes, or one unseen key is marked seen (dedup miss that did not
reach the fetch), or one unseen key is marked seen and fetched. -/
theorem walkStep_log_seen (env : Env) (opts : Options) (st : WalkState) :
    ((walkStep env opts st).state.fetchLog = st.fetchLog ∧
     (walkStep env opts st).state.seen = st.seen) ∨
    (∃ key, key ∉ st.seen ∧
      (walkStep env opts st).state.fetchLog = st.fetchLog ∧
      (walkStep env opts st).state.seen = key :: st.seen) ∨
    (∃ key, key ∉ st.seen ∧
      (walkStep env opts st).state.fetchLog = st.fetchLog ++ [key] ∧
      (walkStep env opts st).state.seen = key :: st.seen) := by
  unfold walkStep
  cases hq : st.queue with
  | nil => left; simp [hq, StepOut.state]
  | cons current rest =>
    simp only [hq]
    split
    · left; simp [StepOut.state]
    · by_cases hseen : canonicalURLKey current.loc ∈ st.seen
      · rw [if_pos hseen]
        left; simp [StepOut.state]
      · rw [if_neg hseen]
        have hstp :
            ((if opts.ignoreRobots then
                ((true, none),
                 { st with queue := rest, seen := canonicalURLKey current.loc :: st.seen })
              else allowedByRobotsM env opts current.loc
                { st with queue := rest, seen := canonicalURLKey current.loc :: st.seen })
              : (Bool × Option WalkError) × WalkState).2.seen
                = canonicalURLKey current.loc :: st.seen ∧
            ((if opts.ignoreRobots then
                ((true, none),
                 { st with queue := rest, seen := canonicalURLKey current.loc :: st.seen })
              else allowedByRobotsM env opts current.loc
                { st with queue := rest, seen := canonicalURLKey current.loc :: st.seen })
              : (Bool × Option WalkError) × WalkState).2.fetchLog = st.fetchLog := by
          by_cases hir : opts.ignoreRobots
          · simp [hir]
          · have hs := allowedByRobotsM_spec env opts current.loc
              { st with queue := rest, seen := canonicalURLKey current.loc :: st.seen }
            simp only [hir, if_false, Bool.false_eq_true]
            exact ⟨hs.2.2.1, hs.2.2.2.2.2.2⟩
        cases hstep :
            ((if opts.ignoreRobots then
                ((true, none),
                 { st with queue := rest, seen := canonicalURLKey current.loc :: st.seen })
              else allowedByRobotsM env opts current.loc
                { st with queue := rest, seen := canonicalURLKey current.loc :: st.seen })
              : (Bool × Option WalkError) × WalkState) with
        | mk br st2 =>
          rw [hstep] at hstp
          obtain ⟨hseen2, hlog2⟩ := hstp
          simp only at hseen2 hlog2
          cases br with
          | mk b oe =>
            cases oe with
            | some er =>
              right; left
              exact ⟨canonicalURLKey current.loc, hseen, by simp [StepOut.state, hlog2],
                     by simp [StepOut.state, hseen2]⟩
            | none =>
              by_cases hb : b
              · simp only [hb, not_true, if_false, Bool.false_eq_true]
                split
                · right; left
                  exact ⟨canonicalURLKey current.loc, hseen, by simp [StepOut.state, hlog2],
                         by simp [StepOut.state, hseen2]⟩
                · cases hfr : (fetchSitemapGo env opts current.loc current.allowMissing).result with
                  | error er =>
                    right; right
                    exact ⟨canonicalURLKey current.loc, hseen,
                           by simp [StepOut.state, hlog2], by simp [StepOut.state, hseen2]⟩
                  | ok body =>
                    cases body with
                    | none =>
                      right; right
                      exact ⟨canonicalURLKey current.loc, hseen,
                             by simp [StepOut.state, hlog2], by simp [StepOut.state, hseen2]⟩
                    | some records =>
                      have hp := processRecords_pres env opts current records
                        { st2 with sitemapCount := st2.sitemapCount + 1,
                                   fetchLog := st2.fetchLog ++ [canonicalURLKey current.loc] }
                      cases hpr : processRecords env opts current records
                          { st2 with sitemapCount := st2.sitemapCount + 1,
                                     fetchLog := st2.fetchLog ++ [canonicalURLKey current.loc] } with
                      | mk pres st4 =>
                        rw [hpr] at hp
                        right; right
                        refine ⟨canonicalURLKey current.loc, hseen, ?_, ?_⟩ <;>
                          cases pres <;>
                            simp_all [StepOut.state]
              · simp only [hb]
                right; left
                exact ⟨canonicalURLKey current.loc, hseen, by simp [StepOut.state, hlog2],
                       by simp [StepOut.state, hseen2]⟩

theorem walkStep_fetchInv (env : Env) (opts : Options) (st : WalkState) (h : fetchInv st) :
    fetchInv (walkStep env opts st).state := by
  rcases walkStep_log_seen env opts st with ⟨h1, h2⟩ | ⟨key, hk, h1, h2⟩ | ⟨key, hk, h1, h2⟩
  · exact ⟨h1 ▸ h.1, fun k hkk => h2 ▸ h.2 k (h1 ▸ hkk)⟩
  · refine ⟨h1 ▸ h.1, fun k hkk => ?_⟩
    rw [h2]
    exact List.mem_cons_of_mem _ (h.2 k (h1 ▸ hkk))
  · constructor
    · rw [h1]
      have hknot : key ∉ st.fetchLog := fun hc => hk (h.2 key hc)
      simp [List.nodup_append, h.1, hknot]
    · intro k hkk
      rw [h1] at hkk
      rw [h2]
      rcases List.mem_append.mp hkk with hin | hin
      · exact List.mem_cons_of_mem _ (h.2 k hin)
      · simp only [List.mem_singleton] at hin
        subst hin
        exact List.mem_cons_self _ _

theorem walkLoop_fetchInv (env : Env) (opts : Options) :
    ∀ (fuel : Nat) (st : WalkState) (res : Except WalkError Unit × WalkState),
      fetchInv st → walkLoop env opts fuel st = some res → fetchInv res.2 := by
  intro fuel
  induction fuel with
  | zero => intro st res h hw; simp [walkLoop] at hw
  | succ n ih =>
    intro st res h hw
    have hstep := walkStep_fetchInv env opts st h
    simp only [walkLoop] at hw
    cases hws : walkStep env opts st with
    | finished st2 =>
      rw [hws] at hw hstep
      simp only [StepOut.state] at hstep
      simp only [Option.some.injEq] at hw
      rw [← hw]
      exact hstep
    | halt r st2 =>
      rw [hws] at hw hstep
      simp only [StepOut.state] at hstep
      simp only [Option.some.injEq] at hw
      rw [← hw]
      exact hstep
    | next st2 =>
      rw [hws] at hw hstep
      simp only [StepOut.state] at hstep
      exact ih st2 res hstep hw

theorem fetchSitemapAux_err (env : Env) (opts : Options) (loc : URL) (am : Bool) :
    ∀ (rem attempt : Nat) (er : WalkError),
      (fetchSitemapAux env opts loc am attempt rem).result = .error er →
      (∃ code, er = .httpStatus loc code) ∨ er = .netError loc := by
  intro rem
  induction rem with
  | zero =>
    intro attempt er hres
    simp only [fetchSitemapAux, Except.error.injEq] at hres
    exact Or.inl ⟨429, hres.symm⟩
  | succ n ih =>
    intro attempt er hres
    unfold fetchSitemapAux at hres
    by_cases hreq : env.reqErr (canonicalURLKey loc) = true
    · simp only [hreq, if_true, Except.error.injEq] at hres
      exact Or.inr hres.symm
    · simp only [hreq, if_false, Bool.false_eq_true] at hres
      cases hf : env.fetch (canonicalURLKey loc) attempt with
      | netErr =>
        simp only [hf, Except.error.injEq] at hres
        exact Or.inr hres.symm
      | resp r =>
        simp only [hf] at hres
        by_cases h429 : r.status = 429
        · simp only [h429, if_true] at hres
          by_cases hmax : attempt = maxRetryAttempts
          · simp only [hmax, if_true, Except.error.injEq] at hres
            exact Or.inl ⟨429, hres.symm⟩
          · simp only [hmax, if_false] at hres
            exact ih (attempt + 1) er hres
        · rw [if_neg h429] at hres
          by_cases hnon : r.status < 200 ∨ r.status ≥ 300
          · rw [if_pos hnon] at hres
            by_cases hallow : opts.allowNon200 = true
            · simp [hallow] at hres
            · simp only [hallow, if_false, Bool.false_eq_true] at hres
              by_cases hmiss : am = true ∧ r.status = 404
              · simp [hmiss] at hres
              · simp only [hmiss, if_false, Except.error.injEq] at hres
                exact Or.inl ⟨r.status, hres.symm⟩
          · rw [if_neg hnon] at hres
            simp at hres

theorem classifyParseError_kinds (current : SitemapTask) (e : WalkError) :
    isNoSitemapsRes (.error (classifyParseError current e)) = false := by
  cases e <;> simp [classifyParseError, isNoSitemapsRes]

theorem walkStep_halt_kinds (env : Env) (opts : Options) (st : WalkState)
    (res : Except WalkError Unit) (st2 : WalkState)
    (h : walkStep env opts st = .halt res st2) :
    isNoSitemapsRes res = false := by
  unfold walkStep at h
  cases hq : st.queue with
  | nil => rw [hq] at h; simp at h
  | cons current rest =>
    rw [hq] at h
    simp only at h
    split at h
    · simp only [StepOut.halt.injEq] at h
      rw [← h.1]
      simp [isNoSitemapsRes]
    · by_cases hseen : canonicalURLKey current.loc ∈ st.seen
      · rw [if_pos hseen] at h
        simp at h
      · rw [if_neg hseen] at h
        have hnone :
            ((if opts.ignoreRobots then
                ((true, none),
                 { st with queue := rest, seen := canonicalURLKey current.loc :: st.seen })
              else allowedByRobotsM env opts current.loc
                { st with queue := rest, seen := canonicalURLKey current.loc :: st.seen })
              : (Bool × Option WalkError) × WalkState).1.2 = none := by
          by_cases hir : opts.ignoreRobots
          · simp [hir]
          · simp only [hir, if_false, Bool.false_eq_true]
            exact (allowedByRobotsM_snd env opts current.loc _).2
        cases hstep :
            ((if opts.ignoreRobots then
                ((true, none),
                 { st with queue := rest, seen := canonicalURLKey current.loc :: st.seen })
              else allowedByRobotsM env opts current.loc
                { st with queue := rest, seen := canonicalURLKey current.loc :: st.seen })
              : (Bool × Option WalkError) × WalkState) with
        | mk br st3 =>
          rw [hstep] at h hnone
          simp only at hnone
          cases br with
          | mk b oe =>
            subst hnone
            simp only at h
            by_cases hb : b
            · simp only [hb, not_true, if_false, Bool.false_eq_true] at h
              split at h
              · simp only [StepOut.halt.injEq] at h
                rw [← h.1]
                simp [isNoSitemapsRes]
              · cases hfr : (fetchSitemapGo env opts current.loc current.allowMissing).result with
                | error er =>
                  rw [hfr] at h
                  simp only [StepOut.halt.injEq] at h
                  rw [← h.1]
                  rcases fetchSitemapAux_err env opts current.loc current.allowMissing
                      (maxRetryAttempts + 1) 0 er hfr with ⟨code, hc⟩ | hc <;>
                    simp [hc, isNoSitemapsRes]
                | ok body =>
                  rw [hfr] at h
                  cases body with
                  | none => simp at h
                  | some records =>
                    simp only at h
                    cases hpr : processRecords env opts current records
                        { st3 with sitemapCount := st3.sitemapCount + 1,
                                   fetchLog := st3.fetchLog ++ [canonicalURLKey current.loc] } with
                    | mk pres st4 =>
                      rw [hpr] at h
                      cases pres with
                      | error er =>
                        simp only [StepOut.halt.injEq] at h
                        rw [← h.1]
                        exact classifyParseError_kinds current er
                      | ok u => simp at h
            · simp only [hb] at h
              simp at h

theorem walkLoop_not_noSitemaps (env : Env) (opts : Options) :
    ∀ (fuel : Nat) (st : WalkState) (res : Except WalkError Unit × WalkState),
      walkLoop env opts fuel st = some res → isNoSitemapsRes res.1 = false := by
  intro fuel
  induction fuel with
  | zero => intro st res hw; simp [walkLoop] at hw
  | succ n ih =>
    intro st res hw
    simp only [walkLoop] at hw
    cases hws : walkStep env opts st with
    | finished st2 =>
      rw [hws] at hw
      simp only [Option.some.injEq] at hw
      rw [← hw]
      simp [isNoSitemapsRes]
    | halt r st2 =>
      rw [hws] at hw
      simp only [Option.some.injEq] at hw
      rw [← hw]
      exact walkStep_halt_kinds env opts st r st2 hws
    | next st2 =>
      rw [hws] at hw
      exact ih st2 res hw

theorem initialSitemaps_length (input base : URL) (robots : Option RobotsRulesM) :
    0 < (initialSitemaps input base robots).length := by
  unfold initialSitemaps
  split
  · simp
  · cases robots with
    | none => simp [defaultSitemaps, defaultSitemapPaths]
    | some r =>
      simp only []
      split
      · simpa using ‹0 < r.sitemaps.length›
      · simp [defaultSitemaps, defaultSitemapPaths]

theorem normalizeInputURL_err (website : URL) (er : WalkError)
    (h : normalizeInputURL website = .error er) : er = .invalidURL := by
  unfold normalizeInputURL at h
  by_cases hh : website.host = "" <;> by_cases hs : website.scheme = "" <;> simp_all

/-- Shape lemma: `Walk` either fails normalization with `ErrInvalidURL`, or enters the
queue loop on a state with empty seen set and fetch log (the
`ErrNoSitemaps` branch being unreachable since seeding never returns an
empty list). -/
theorem walkRun_shape (env : Env) (opts : Options) (website : URL) (fuel : Nat)
    (res : Except WalkError Unit × WalkState)
    (h : walkRun env opts website fuel = some res) :
    res = (.error .invalidURL, initState []) ∨
    (∃ st1, walkLoop env opts fuel st1 = some res ∧ st1.fetchLog = [] ∧ st1.seen = []) := by
  unfold walkRun at h
  cases hn : normalizeInputURL website with
  | error er =>
    rw [hn] at h
    simp only [Option.some.injEq] at h
    left
    rw [← h, normalizeInputURL_err website er hn]
  | ok p =>
    rw [hn] at h
    obtain ⟨input, base⟩ := p
    simp only at h
    by_cases hc : ¬ opts.ignoreRobots = true ∧ ¬ isLikelySitemapURL input = true
    · rw [if_pos hc] at h
      cases hg : getRobotsM env opts base (initState []) with
      | mk gres st0 =>
        have hst0 := getRobotsM_state env opts base (initState [])
        rw [hg] at h hst0
        obtain ⟨-, hseen, -, -, -, hlog⟩ := hst0
        simp only [initState] at hseen hlog
        cases gres with
        | ok r =>
          simp only at h
          cases hl : initialSitemaps input base (some r) with
          | nil => exact absurd (initialSitemaps_length input base (some r)) (by simp [hl])
          | cons a as =>
            rw [hl] at h
            simp only [List.isEmpty_cons, if_false, Bool.false_eq_true] at h
            exact Or.inr ⟨_, h, by simpa using hlog, by simpa using hseen⟩
        | error e =>
          simp only at h
          cases hl : initialSitemaps input base none with
          | nil => exact absurd (initialSitemaps_length input base none) (by simp [hl])
          | cons a as =>
            rw [hl] at h
            simp only [List.isEmpty_cons, if_false, Bool.false_eq_true] at h
            exact Or.inr ⟨_, h, by simpa using hlog, by simpa using hseen⟩
    · rw [if_neg hc] at h
      simp only at h
      cases hl : initialSitemaps input base none with
      | nil => exact absurd (initialSitemaps_length input base none) (by simp [hl])
      | cons a as =>
        rw [hl] at h
        simp only [List.isEmpty_cons, if_false, Bool.false_eq_true] at h
        exact Or.inr ⟨_, h, by simp [initState], by simp [initState]⟩

/-! Claim C1 -/

/-- The initial loop state for a sitemap-like input: the sole seed is the
input itself at depth 0. -/
def seedState (input : URL) : WalkState := initState [⟨input, 0, false⟩]

/-- C1 counterexample: the claim says that for a sitemap-looking input
with ignore-robots unset, the seeded depth-0 task is fetched without
consulting robots.txt.  In the concrete scenario where
`https://example.com` serves a robots.txt disallowing `/sitemap.xml`, the
walk on input `https://example.com/sitemap.xml` does consult robots.txt
(one robots round trip is logged), the input sitemap is never fetched (the
fetch log stays empty), and no items are yielded — the allow/deny check is
applied to the very first discovery step, refuting the claim. -/
theorem c1_robots_consulted_on_seed_counterexample :
    (walkRun c1Env defaultOpts c1Input 5).map
        (fun r => (r.1, r.2.items, r.2.fetchLog, r.2.robotsLog))
      = some (.ok (), [], [], ["https://example.com"]) := by rfl

/-- C1 amended: with ignore-robots unset and a sitemap-looking
input, only the seeding-time robots.txt *discovery* is skipped: no robots
fetch happens before the queue loop and the sole seed is the input at
depth 0; the robots allow/deny check is still applied to that seeded
depth-0 task when it is dequeued, and a disallowed verdict prevents its
fetch (the walk ends cleanly with an empty fetch log). -/
theorem c1_amended_robots_discovery_skipped (env : Env) (opts : Options)
    (website input base : URL) (f : Nat)
    (hn : normalizeInputURL website = .ok (input, base))
    (hs : isLikelySitemapURL input = true)
    (hr : opts.ignoreRobots = false) :
    walkRun env opts website (f + 2) = walkLoop env opts (f + 2) (seedState input) ∧
    (∀ st2, allowedByRobotsM env opts input
        ⟨[], [canonicalURLKey input], [], 0, 0, [], [], []⟩ = ((false, none), st2) →
      walkRun env opts website (f + 2) = some (.ok (), st2) ∧ st2.fetchLog = []) := by
  have hinit : initialSitemaps input base none = [⟨input, 0, false⟩] := by
    simp [initialSitemaps, hs]
  have hpre : walkRun env opts website (f + 2)
      = walkLoop env opts (f + 2) (seedState input) := by
    unfold walkRun
    rw [hn]
    simp [hr, hs, hinit, seedState, initState]
  refine ⟨hpre, ?_⟩
  intro st2 hrob
  have hspec := allowedByRobotsM_spec env opts input
    ⟨[], [canonicalURLKey input], [], 0, 0, [], [], []⟩
  rw [hrob] at hspec
  obtain ⟨-, hqueue, -, -, -, -, hlog⟩ := hspec
  simp only at hqueue hlog
  refine ⟨?_, hlog⟩
  rw [hpre]
  have hws : walkStep env opts (seedState input) = .next st2 := by
    unfold walkStep
    simp only [seedState, initState]
    rw [if_neg (by omega)]
    rw [if_neg (by simp)]
    simp only [hr, if_false, Bool.false_eq_true]
    rw [show ({ (⟨[⟨input, 0, false⟩], [], [], 0, 0, [], [], []⟩ : WalkState) with
                queue := ([] : List SitemapTask),
                seen := [canonicalURLKey input] } : WalkState)
          = (⟨[], [canonicalURLKey input], [], 0, 0, [], [], []⟩ : WalkState) from rfl]
    rw [hrob]
    simp
  show walkLoop env opts (f + 1 + 1) (seedState input) = some (.ok (), st2)
  rw [walkLoop, hws]
  have hws2 : walkStep env opts st2 = .finished st2 := by
    unfold walkStep
    simp [hqueue]
  show walkLoop env opts (f + 1) st2 = some (.ok (), st2)
  cases f with
  | zero => rw [walkLoop, hws2]
  | succ g =>
    show walkLoop env opts (g + 1 + 1) st2 = some (.ok (), st2)
    rw [walkLoop, hws2]

/-- The state in which the C1-witness robots check leaves the walk: the
robots rules for `https://example.com` cached, one robots fetch logged,
nothing fetched. -/
def c1St2 : WalkState :=
  ⟨[], ["https://example.com/sitemap.xml"],
   [("https://example.com", ⟨some c1Group, []⟩)], 0, 0, [], [], ["https://example.com"]⟩

theorem c1_amended_robots_discovery_skipped_witness :
    walkRun c1Env defaultOpts c1Input 2 = some (.ok (), c1St2) ∧ c1St2.fetchLog = [] := by
  have h := c1_amended_robots_discovery_skipped c1Env defaultOpts c1Input c1Input
    ⟨"https", "example.com", "", "", ""⟩ 0 (by rfl) (by rfl) rfl
  exact h.2 c1St2 (by rfl)

/-! Claim C2 -/

theorem URL_set_frag_self (u : URL) (h : u.fragment = "") :
    ({ u with fragment := "" } : URL) = u := by
  cases u; simp_all

/-- Behaviour of the URL-record callback when robots is ignored and the
yield callback always succeeds. -/
theorem processURLEntry_ignore (env : Env) (opts : Options) (current : SitemapTask)
    (e : XmlURLEntry) (st : WalkState)
    (hir : opts.ignoreRobots = true) (hy : ∀ i, env.yieldOk i = true) :
    (isYieldable opts current.loc e = false →
      processURLEntry env opts current e st = (.ok (), st)) ∧
    (isYieldable opts current.loc e = true →
      (opts.maxURLs > 0 ∧ st.urlCount ≥ opts.maxURLs →
        processURLEntry env opts current e st = (.error (.maxURLs opts.maxURLs), st)) ∧
      (¬ (opts.maxURLs > 0 ∧ st.urlCount ≥ opts.maxURLs) →
        processURLEntry env opts current e st
          = (.ok (), { st with
              items := st.items ++ [mkItem env current
                ((resolveLocation current.loc e.loc).toOption.getD current.loc) e],
              urlCount := st.urlCount + 1 }))) := by
  unfold processURLEntry
  cases hre : resolveLocation current.loc e.loc with
  | error u =>
    refine ⟨fun _ => rfl, fun hyld => ?_⟩
    exfalso
    simp [isYieldable, hre] at hyld
  | ok loc =>
    simp only [hir, if_true]
    by_cases hinc : shouldInclude opts loc
    · have hyld : isYieldable opts current.loc e = true := by
        simp [isYieldable, hre, hinc]
      constructor
      · intro hc
        rw [hc] at hyld
        cases hyld
      · intro _
        constructor
        · intro hmax
          rw [if_neg (by simp), if_neg (by simp [hinc]), if_pos hmax]
        · intro hmax
          rw [if_neg (by simp), if_neg (by simp [hinc]), if_neg hmax]
          simp only [hy, if_true]
          simp [hre, Except.toOption]
    · have hyld : isYieldable opts current.loc e = false := by
        simp [isYieldable, hre, hinc]
      constructor
      · intro _
        rw [if_neg (by simp), if_pos hinc]
      · intro hc
        rw [hc] at hyld
        cases hyld

theorem processRecords_url_err (env : Env) (opts : Options) (current : SitemapTask)
    (e : XmlURLEntry) (rest : List SitemapRecord) (st st2 : WalkState) (er : WalkError)
    (h : processURLEntry env opts current e st = (.error er, st2)) :
    processRecords env opts current (.url e :: rest) st = (.error er, st2) := by
  have hm : processRecords env opts current (.url e :: rest) st
      = match processURLEntry env opts current e st with
        | (.error er, st3) => (.error er, st3)
        | (.ok _, st3) => processRecords env opts current rest st3 := rfl
  rw [hm, h]

theorem processRecords_url_ok (env : Env) (opts : Options) (current : SitemapTask)
    (e : XmlURLEntry) (rest : List SitemapRecord) (st st2 : WalkState)
    (h : processURLEntry env opts current e st = (.ok (), st2)) :
    processRecords env opts current (.url e :: rest) st
      = processRecords env opts current rest st2 := by
  have hm : processRecords env opts current (.url e :: rest) st
      = match processURLEntry env opts current e st with
        | (.error er, st3) => (.error er, st3)
        | (.ok _, st3) => processRecords env opts current rest st3 := rfl
  rw [hm, h]

theorem processRecords_cons_sitemap (env : Env) (opts : Options) (current : SitemapTask)
    (e : XmlSitemapEntry) (rest : List SitemapRecord) (st : WalkState) :
    processRecords env opts current (.sitemap e :: rest) st
      = processRecords env opts current rest (processSitemapEntry current e st) := rfl

theorem yieldableCount_cons_url (opts : Options) (base : URL) (e : XmlURLEntry)
    (rs : List SitemapRecord) :
    yieldableCount opts base (.url e :: rs)
      = (if isYieldable opts base e then 1 else 0) + yieldableCount opts base rs := rfl

theorem yieldableCount_cons_sitemap (opts : Options) (base : URL) (e : XmlSitemapEntry)
    (rs : List SitemapRecord) :
    yieldableCount opts base (.sitemap e :: rs) = yieldableCount opts base rs := rfl

/-- The exact-boundary counting behaviour of the record loop when robots
is ignored: as long as the yieldable entries fit in the remaining MaxURLs
budget the loop succeeds and yields all of them; as soon as they exceed
it, it stops with `ErrMaxURLs` having yielded exactly the remaining
budget. -/
theorem processRecords_count (env : Env) (opts : Options) (current : SitemapTask)
    (hir : opts.ignoreRobots = true) (hy : ∀ i, env.yieldOk i = true)
    (hN : 0 < opts.maxURLs) :
    ∀ (rs : List SitemapRecord) (st : WalkState), st.urlCount ≤ opts.maxURLs →
      (st.urlCount + yieldableCount opts current.loc rs ≤ opts.maxURLs →
        (processRecords env opts current rs st).1 = .ok () ∧
        (processRecords env opts current rs st).2.items.length
          = st.items.length + yieldableCount opts current.loc rs ∧
        (processRecords env opts current rs st).2.urlCount
          = st.urlCount + yieldableCount opts current.loc rs) ∧
      (opts.maxURLs < st.urlCount + yieldableCount opts current.loc rs →
        (processRecords env opts current rs st).1 = .error (.maxURLs opts.maxURLs) ∧
        (processRecords env opts current rs st).2.items.length
          = st.items.length + (opts.maxURLs - st.urlCount)) := by
  intro rs
  induction rs with
  | nil =>
    intro st hle
    constructor
    · intro _; simp [processRecords, yieldableCount]
    · intro hover
      exfalso
      simp only [yieldableCount] at hover
      omega
  | cons r rest ih =>
    intro st hle
    cases r with
    | sitemap e =>
      have hs := processSitemapEntry_pres current e st
      have hrec := ih (processSitemapEntry current e st) (by rw [hs.2.2.1]; exact hle)
      rw [processRecords_cons_sitemap, yieldableCount_cons_sitemap]
      rw [hs.2.2.1, hs.2.2.2] at hrec
      exact hrec
    | url e =>
      have hu := processURLEntry_ignore env opts current e st hir hy
      rw [yieldableCount_cons_url]
      cases hyld : isYieldable opts current.loc e with
      | false =>
        have heq := hu.1 hyld
        have hrec := ih st hle
        rw [processRecords_url_ok env opts current e rest st st heq]
        simpa using hrec
      | true =>
        simp only [if_true]
        by_cases hmax : opts.maxURLs > 0 ∧ st.urlCount ≥ opts.maxURLs
        · have heq := (hu.2 hyld).1 hmax
          have hcnt : st.urlCount = opts.maxURLs := by omega
          rw [processRecords_url_err env opts current e rest st st _ heq]
          constructor
          · intro hfits
            exfalso
            omega
          · intro _
            exact ⟨rfl, by simp; omega⟩
        · have heq := (hu.2 hyld).2 hmax
          have hlt : st.urlCount < opts.maxURLs := by omega
          rw [processRecords_url_ok env opts current e rest st _ heq]
          have hrec := ih
            { st with
              items := st.items ++ [mkItem env current
                ((resolveLocation current.loc e.loc).toOption.getD current.loc) e],
              urlCount := st.urlCount + 1 } (by simp; omega)
          simp only [] at hrec
          constructor
          · intro hfits
            have h1 := hrec.1 (by omega)
            refine ⟨h1.1, ?_, ?_⟩
            · rw [h1.2.1]
              simp
              omega
            · rw [h1.2.2]
              omega
          · intro hover
            have h1 := hrec.2 (by omega)
            refine ⟨h1.1, ?_⟩
            rw [h1.2]
            simp
            omega

theorem fetchSitemapGo_singleDoc (doc : List SitemapRecord) (opts : Options)
    (loc : URL) (am : Bool) :
    fetchSitemapGo (singleDocEnv doc) opts loc am = ⟨.ok (some doc), 1, []⟩ := by
  simp [fetchSitemapGo, fetchSitemapAux, singleDocEnv, baseEnv, maxRetryAttempts]

/-- C2: with `MaxURLs = N > 0` and a document holding more than `N`
yieldable URL entries (robots ignored; the yield callback always
succeeds), `Walk` invokes the yield callback exactly `N` times and then
returns `ErrMaxURLs`: the boundary check precedes the counter increment,
so the items delivered when the error is raised number exactly `N`. -/
theorem c2_maxURLs_exact_boundary (opts : Options) (doc : List SitemapRecord)
    (input : URL) (fuel : Nat)
    (hir : opts.ignoreRobots = true) (hN : 0 < opts.maxURLs)
    (hscheme : input.scheme ≠ "") (hhost : input.host ≠ "") (hfrag : input.fragment = "")
    (hlike : isLikelySitemapURL input = true)
    (hY : opts.maxURLs < yieldableCount opts input doc) :
    (walkRun (singleDocEnv doc) opts input (fuel + 1)).map
        (fun r => (r.1, r.2.items.length))
      = some (.error (.maxURLs opts.maxURLs), opts.maxURLs) := by
  have hn : normalizeInputURL input
      = .ok (input, ⟨input.scheme, input.host, "", "", ""⟩) := by
    obtain ⟨sch, host, path, q, frag⟩ := input
    simp only at hscheme hhost hfrag
    subst hfrag
    simp [normalizeInputURL, hscheme, hhost]
  have hinit : initialSitemaps input ⟨input.scheme, input.host, "", "", ""⟩ none
      = [⟨input, 0, false⟩] := by
    simp [initialSitemaps, hlike]
  -- the state in which the single seed task's document is decoded
  have hproc := processRecords_count (singleDocEnv doc) opts ⟨input, 0, false⟩ hir
    (fun _ => rfl) hN doc
    ⟨[], [canonicalURLKey input], [], 1, 0, [], [canonicalURLKey input], []⟩
    (by simp)
  cases hpr : processRecords (singleDocEnv doc) opts ⟨input, 0, false⟩ doc
      ⟨[], [canonicalURLKey input], [], 1, 0, [], [canonicalURLKey input], []⟩ with
  | mk pres st4 =>
    rw [hpr] at hproc
    have hover := hproc.2 (by simpa using hY)
    have hres : pres = .error (.maxURLs opts.maxURLs) := hover.1
    have hitems : st4.items.length = opts.maxURLs := by
      have := hover.2
      simpa using this
    have hws : walkStep (singleDocEnv doc) opts (seedState input)
        = .halt (.error (.maxURLs opts.maxURLs)) st4 := by
      unfold walkStep
      simp only [seedState, initState]
      rw [if_neg (by omega)]
      rw [if_neg (by simp)]
      simp only [hir, if_true]
      rw [if_neg (by simp)]
      rw [if_neg (by simp; omega)]
      rw [fetchSitemapGo_singleDoc]
      simp only []
      rw [show ({ (⟨[], [canonicalURLKey input], [], 0, 0, [], [], []⟩ : WalkState) with
            sitemapCount := 0 + 1,
            fetchLog := ([] : List String) ++ [canonicalURLKey input] } : WalkState)
          = (⟨[], [canonicalURLKey input], [], 1, 0, [], [canonicalURLKey input], []⟩
              : WalkState) from rfl]
      rw [hpr, hres]
      simp [classifyParseError]
    unfold walkRun
    rw [hn]
    dsimp only
    have hcond : ¬ (¬ opts.ignoreRobots = true ∧ ¬ isLikelySitemapURL input = true) := by
      simp [hir]
    rw [if_neg hcond]
    dsimp only
    rw [hinit]
    have hne : ¬ (([(⟨input, 0, false⟩ : SitemapTask)] : List SitemapTask).isEmpty = true) := by
      simp
    rw [if_neg hne]
    rw [show ({ initState [] with queue := [(⟨input, 0, false⟩ : SitemapTask)] } : WalkState)
        = seedState input from rfl]
    rw [walkLoop, hws]
    simp [hitems]

theorem c2_maxURLs_exact_boundary_witness :
    (walkRun (singleDocEnv c2Doc) c2Opts c1Input 5).map (fun r => (r.1, r.2.items.length))
      = some (.error (.maxURLs 1), 1) :=
  c2_maxURLs_exact_boundary c2Opts c2Doc c1Input 4 rfl (by decide) (by decide)
    (by decide) rfl (by rfl) (by decide)

/-! Claim C3 -/

/-- One non-final 429 iteration of the `fetchSitemap` retry loop. -/
theorem fetchSitemapAux_step429 (env : Env) (opts : Options) (loc : URL) (am : Bool)
    (attempt rem : Nat) (r : FetchResp)
    (hreq : env.reqErr (canonicalURLKey loc) = false)
    (hf : env.fetch (canonicalURLKey loc) attempt = .resp r)
    (h429 : r.status = 429) (hna : ¬ attempt = maxRetryAttempts) :
    fetchSitemapAux env opts loc am attempt (rem + 1)
      = ⟨(fetchSitemapAux env opts loc am (attempt + 1) rem).result,
         (fetchSitemapAux env opts loc am (attempt + 1) rem).requests + 1,
         clampRetryDelay (retryAfterDelay r.retryAfter env.now env.httpDate)
           :: (fetchSitemapAux env opts loc am (attempt + 1) rem).sleeps⟩ := by
  conv_lhs => rw [fetchSitemapAux]
  simp only [hreq, Bool.false_eq_true, if_false, hf]
  rw [if_pos h429, if_neg hna]

/-- The final 429 iteration (`attempt == maxRetryAttempts`): close and
fail with `HTTPStatus(429)`. -/
theorem fetchSitemapAux_429_last (env : Env) (opts : Options) (loc : URL) (am : Bool)
    (rem : Nat) (r : FetchResp)
    (hreq : env.reqErr (canonicalURLKey loc) = false)
    (hf : env.fetch (canonicalURLKey loc) maxRetryAttempts = .resp r)
    (h429 : r.status = 429) :
    fetchSitemapAux env opts loc am maxRetryAttempts (rem + 1)
      = ⟨.error (.httpStatus loc 429), 1, []⟩ := by
  conv_lhs => rw [fetchSitemapAux]
  simp only [hreq, Bool.false_eq_true, if_false, hf]
  rw [if_pos h429]
  simp

/-- C3: when every attempt is answered with HTTP 429, `fetchSitemap`
makes exactly 4 requests (3 retries) and fails with `HTTPStatus(429)`,
sleeping between tries for the delay computed from each try's
`Retry-After` header — where an absent/invalid/non-positive header yields
the fixed default delay, a positive integer header yields that many
seconds, an HTTP-date header yields the time until that date, and every
delay is clamped to the `maxRetryDelay` ceiling. -/
theorem c3_rate_limit_retries (env : Env) (opts : Options) (loc : URL) (am : Bool)
    (headers : Nat → String) (bodies : Nat → List SitemapRecord)
    (hreq : env.reqErr (canonicalURLKey loc) = false)
    (hresp : ∀ a, a ≤ 3 →
      env.fetch (canonicalURLKey loc) a = .resp ⟨429, headers a, bodies a⟩) :
    fetchSitemapGo env opts loc am
      = ⟨.error (.httpStatus loc 429), 4,
         [clampRetryDelay (retryAfterDelay (headers 0) env.now env.httpDate),
          clampRetryDelay (retryAfterDelay (headers 1) env.now env.httpDate),
          clampRetryDelay (retryAfterDelay (headers 2) env.now env.httpDate)]⟩ ∧
    (∀ now hd, retryAfterDelay "" now hd = 0) ∧
    clampRetryDelay 0 = defaultRetryDelay ∧
    (∀ d, 0 < d → d ≤ maxRetryDelay → clampRetryDelay d = d) ∧
    (∀ d, maxRetryDelay < d → clampRetryDelay d = maxRetryDelay) ∧
    (∀ s now hd k, goTrim s = s → goAtoi s = some k → 0 < k →
      retryAfterDelay s now hd = k * 1000000000) ∧
    (∀ s now hd t, goTrim s = s → s ≠ "" → goAtoi s = none → hd s = some t →
      retryAfterDelay s now hd = t - now) := by
  refine ⟨?_, ?_, ?_, ?_, ?_, ?_, ?_⟩
  · have h3 : fetchSitemapAux env opts loc am 3 1
        = ⟨.error (.httpStatus loc 429), 1, []⟩ :=
      fetchSitemapAux_429_last env opts loc am 0 ⟨429, headers 3, bodies 3⟩ hreq
        (hresp 3 (by omega)) rfl
    have h2 : fetchSitemapAux env opts loc am 2 2
        = ⟨.error (.httpStatus loc 429), 2,
           [clampRetryDelay (retryAfterDelay (headers 2) env.now env.httpDate)]⟩ := by
      have hx := fetchSitemapAux_step429 env opts loc am 2 1 ⟨429, headers 2, bodies 2⟩
        hreq (hresp 2 (by omega)) rfl (by simp [maxRetryAttempts])
      rw [show fetchSitemapAux env opts loc am (2 + 1) 1
            = fetchSitemapAux env opts loc am 3 1 from rfl, h3] at hx
      simpa using hx
    have h1 : fetchSitemapAux env opts loc am 1 3
        = ⟨.error (.httpStatus loc 429), 3,
           [clampRetryDelay (retryAfterDelay (headers 1) env.now env.httpDate),
            clampRetryDelay (retryAfterDelay (headers 2) env.now env.httpDate)]⟩ := by
      have hx := fetchSitemapAux_step429 env opts loc am 1 2 ⟨429, headers 1, bodies 1⟩
        hreq (hresp 1 (by omega)) rfl (by simp [maxRetryAttempts])
      rw [show fetchSitemapAux env opts loc am (1 + 1) 2
            = fetchSitemapAux env opts loc am 2 2 from rfl, h2] at hx
      simpa using hx
    have h0 : fetchSitemapAux env opts loc am 0 4
        = ⟨.error (.httpStatus loc 429), 4,
           [clampRetryDelay (retryAfterDelay (headers 0) env.now env.httpDate),
            clampRetryDelay (retryAfterDelay (headers 1) env.now env.httpDate),
            clampRetryDelay (retryAfterDelay (headers 2) env.now env.httpDate)]⟩ := by
      have hx := fetchSitemapAux_step429 env opts loc am 0 3 ⟨429, headers 0, bodies 0⟩
        hreq (hresp 0 (by omega)) rfl (by simp [maxRetryAttempts])
      rw [show fetchSitemapAux env opts loc am (0 + 1) 3
            = fetchSitemapAux env opts loc am 1 3 from rfl, h1] at hx
      simpa using hx
    exact h0
  · intro now hd; rfl
  · decide
  · intro d h1 h2
    unfold maxRetryDelay at h2
    unfold clampRetryDelay maxRetryDelay defaultRetryDelay
    rw [if_neg (by omega), if_neg (by omega)]
  · intro d h1
    unfold maxRetryDelay at h1
    unfold clampRetryDelay maxRetryDelay defaultRetryDelay
    dsimp only
    rw [if_neg (show ¬ d ≤ 0 from by omega)]
    rw [if_pos (show d > 30000000000 from by omega)]
  · intro s now hd k htrim hatoi hk
    have hne : s ≠ "" := by
      intro he
      rw [he] at hatoi
      simp [goAtoi] at hatoi
    unfold retryAfterDelay
    rw [htrim]
    dsimp only
    rw [if_neg hne, hatoi]
    dsimp only
    rw [if_neg (by omega)]
  · intro s now hd t htrim hne hatoi hdate
    unfold retryAfterDelay
    rw [htrim]
    dsimp only
    rw [if_neg hne, hatoi]
    dsimp only
    rw [hdate]

theorem c3_rate_limit_retries_witness :
    fetchSitemapGo c3Env defaultOpts c1Input false
      = ⟨.error (.httpStatus c1Input 429), 4,
         [7000000000, 5000000000, 30000000000]⟩ :=
  (c3_rate_limit_retries c3Env defaultOpts c1Input false
    (fun a => if a = 0 then "7" else if a = 1 then "0" else if a = 2 then "120" else "")
    (fun _ => []) rfl (fun _ _ => rfl)).1

/-! Claim C4 -/

/-- C4: throughout any single traversal, each canonical sitemap
location is fetched at most once: in every completed `Walk` run the log of
canonical keys that reached the fetch step has no duplicates (the seen-set
lookup happens before the fetch and the key is inserted before fetching). -/
theorem c4_fetched_at_most_once (env : Env) (opts : Options) (website : URL)
    (fuel : Nat) (res : Except WalkError Unit × WalkState)
    (h : walkRun env opts website fuel = some res) :
    res.2.fetchLog.Nodup := by
  rcases walkRun_shape env opts website fuel res h with heq | ⟨st1, hl, hlog, hseen⟩
  · rw [heq]; simp [initState]
  · have hinv : fetchInv st1 := by
      constructor
      · rw [hlog]; exact List.nodup_nil
      · rw [hlog]; intro k hk; cases hk
    exact (walkLoop_fetchInv env opts fuel st1 res hinv hl).1

/-- The final state of the C4 witness run (a self-referencing sitemap:
one fetch, then the second occurrence is deduplicated). -/
def c4Res : Except WalkError Unit × WalkState :=
  (.ok (), ⟨[], ["https://example.com/sitemap.xml"], [], 1, 0, [],
            ["https://example.com/sitemap.xml"], []⟩)

theorem c4_fetched_at_most_once_witness :
    walkRun c4Env ignoreRobotsOpts c1Input 5 = some c4Res ∧ c4Res.2.fetchLog.Nodup :=
  ⟨by rfl, c4_fetched_at_most_once c4Env ignoreRobotsOpts c1Input 5 c4Res (by rfl)⟩

/-! Claim C5 -/

/-- C5: `resolveLocation` trims whitespace, fails on an empty trimmed
value, returns an already-absolute URL as-is with only the fragment
stripped, resolves relative values against the base per the
reference-resolution rules with the fragment stripped, and fails on a
parse error; in the traversal, relative locations resolve against the
containing sitemap's own URL (the current task's location): a sitemap at
`https://h/a/sitemap.xml` whose sole entry is `page` yields
`https://h/a/page` with that sitemap as source. -/
theorem c5_resolveLocation_spec (base : URL) (loc : String) :
    (goTrim loc = "" → resolveLocation base loc = .error ()) ∧
    (∀ p, parseURL (goTrim loc) = some p → p.scheme ≠ "" →
      resolveLocation base loc = .ok { p with fragment := "" }) ∧
    (∀ p, parseURL (goTrim loc) = some p → p.scheme = "" → goTrim loc ≠ "" →
      resolveLocation base loc = .ok { base.resolveReference p with fragment := "" }) ∧
    (parseURL (goTrim loc) = none → goTrim loc ≠ "" →
      resolveLocation base loc = .error ()) ∧
    ((walkRun c5Env ignoreRobotsOpts c5Input 3).map
        (fun r => (r.1, r.2.items.map Item.loc, r.2.items.map Item.sitemap))
      = some (.ok (), [⟨"https", "h", "/a/page", "", ""⟩], [c5Input])) := by
  refine ⟨?_, ?_, ?_, ?_, by rfl⟩
  · intro h
    unfold resolveLocation
    dsimp only
    rw [if_pos h]
  · intro p hp hs
    by_cases he : goTrim loc = ""
    · exfalso
      rw [he] at hp
      rw [show parseURL "" = some ⟨"", "", "", "", ""⟩ from rfl] at hp
      injection hp with hp
      rw [← hp] at hs
      exact hs rfl
    · unfold resolveLocation
      dsimp only
      rw [if_neg he, hp]
      dsimp only
      rw [if_pos hs]
  · intro p hp hs hne
    unfold resolveLocation
    dsimp only
    rw [if_neg hne, hp]
    dsimp only
    rw [if_neg (by simp [hs])]
  · intro hp hne
    unfold resolveLocation
    dsimp only
    rw [if_neg hne, hp]

theorem c5_resolveLocation_spec_witness :
    resolveLocation ⟨"https", "h", "/a/sitemap.xml", "", ""⟩ " page "
      = .ok ⟨"https", "h", "/a/page", "", ""⟩ :=
  (c5_resolveLocation_spec ⟨"https", "h", "/a/sitemap.xml", "", ""⟩ " page ").2.2.1
    ⟨"", "", "page", "", ""⟩ (by rfl) rfl (by decide)

/-! Claim C6 -/

/-- C6: gzip content is detected solely by the first two bytes
matching the magic number `0x1f 0x8b` — the response headers the function
receives play no role — a matching stream is handed to the decompressor,
any other stream (including one too short to peek) is passed through
unchanged with the peeked bytes delivered exactly once, and hence a
gzip-compressed document decodes to exactly the bytes (and so the items)
of its uncompressed equivalent. -/
theorem c6_gzip_by_magic_only (gunzip : List Nat → Option (List Nat))
    (parse : List Nat → List SitemapRecord) (doc compressed : List Nat)
    (ct1 ct2 : String)
    (hmagic : gzipMagic compressed = true)
    (hround : gunzip compressed = some doc)
    (hplain : gzipMagic doc = false) :
    wrapReader gunzip ct1 compressed = some doc ∧
    (∀ body, gzipMagic body = false → wrapReader gunzip ct1 body = some body) ∧
    (∀ body, wrapReader gunzip ct1 body = wrapReader gunzip ct2 body) ∧
    (wrapReader gunzip ct1 compressed).map parse
      = (wrapReader gunzip ct1 doc).map parse := by
  have h1 : wrapReader gunzip ct1 compressed = some doc := by
    unfold wrapReader
    rw [if_pos hmagic, hround]
  have h2 : ∀ body, gzipMagic body = false → wrapReader gunzip ct1 body = some body := by
    intro body hb
    unfold wrapReader
    rw [if_neg (by simp [hb])]
  refine ⟨h1, h2, fun body => rfl, ?_⟩
  rw [h1, h2 doc hplain]

theorem c6_gzip_by_magic_only_witness :
    wrapReader c6Gunzip "text/plain" [0x1f, 0x8b, 60] = some [60] ∧
    wrapReader c6Gunzip "text/plain" [60] = some [60] :=
  have h := c6_gzip_by_magic_only c6Gunzip (fun _ => []) [60] [0x1f, 0x8b, 60]
    "text/plain" "application/octet-stream" (by decide) (by rfl) (by decide)
  ⟨h.1, h.2.1 [60] (by decide)⟩

/-! Claim C7 -/

/-- C7: a robots.txt transport failure, non-200 status, or parse
failure yields the empty allow-all rule set, cached for the traversal's
lifetime (a cached origin is answered from the cache without refetching);
`allowedByRobots` never returns an error to its caller, and answers allow
whenever no applicable rule group exists. -/
theorem c7_robots_failure_allow_all (env : Env) (opts : Options) (base loc : URL)
    (st : WalkState) :
    (lookupCache st.robotsCache (robotsKey base) = none →
      env.reqErr (canonicalURLKey (robotsTxtURL base)) = false →
      robotsFailure (env.robots (robotsKey base)) = true →
      getRobotsM env opts base st
        = (.ok emptyRules,
           { st with robotsCache := (robotsKey base, emptyRules) :: st.robotsCache,
                     robotsLog := st.robotsLog ++ [robotsKey base] })) ∧
    (∀ rules, lookupCache st.robotsCache (robotsKey base) = some rules →
      getRobotsM env opts base st = (.ok rules, st)) ∧
    (allowedByRobotsM env opts loc st).1.2 = none ∧
    (∀ sms st2, getRobotsM env opts ⟨loc.scheme, loc.host, "", "", ""⟩ st
        = (.ok ⟨none, sms⟩, st2) →
      (allowedByRobotsM env opts loc st).1.1 = true) := by
  refine ⟨?_, ?_, (allowedByRobotsM_snd env opts loc st).2, ?_⟩
  · intro h1 h2 h3
    unfold getRobotsM
    dsimp only
    rw [h1]
    dsimp only
    rw [if_neg (by simp [h2])]
    cases hr : env.robots (robotsKey base) with
    | netErr => rfl
    | resp status parsed =>
      rw [hr] at h3
      simp only [robotsFailure, Bool.or_eq_true] at h3
      dsimp only
      by_cases hs : status = 200
      · rw [if_neg (show ¬ status ≠ 200 from by simp [hs])]
        have hpn : parsed = none := by
          rcases h3 with h3 | h3
          · exact absurd hs (by simpa using h3)
          · simpa [Option.isNone_iff_eq_none] using h3
        rw [hpn]
      · rw [if_pos (show status ≠ 200 from hs)]
  · intro rules h
    unfold getRobotsM
    dsimp only
    rw [h]
  · intro sms st2 hg
    unfold allowedByRobotsM
    dsimp only
    rw [hg]

def c7Base : URL := ⟨"https", "e.com", "", "", ""⟩

theorem c7_robots_failure_allow_all_witness :
    getRobotsM c7Env defaultOpts c7Base (initState [])
      = (.ok emptyRules, ⟨[], [], [("https://e.com", emptyRules)], 0, 0, [], [],
                          ["https://e.com"]⟩) ∧
    (allowedByRobotsM c7Env defaultOpts ⟨"https", "e.com", "/x", "", ""⟩
        (initState [])).1.2 = none ∧
    (allowedByRobotsM c7Env defaultOpts ⟨"https", "e.com", "/x", "", ""⟩
        (initState [])).1.1 = true := by
  have h := c7_robots_failure_allow_all c7Env defaultOpts c7Base
    ⟨"https", "e.com", "/x", "", ""⟩ (initState [])
  exact ⟨h.1 rfl rfl rfl, h.2.2.1, h.2.2.2 [] _ (by rfl)⟩

/-! Claim C8 -/

/-- C8: the filter admits a URL iff it matches at least one include
pattern (an empty include set admits everything) and matches no exclude
pattern; exclude is evaluated after include and vetoes an included match;
concretely, include `keep` and exclude `skip` against a document with
`/keep` and `/skip` entries yields exactly `/keep`. -/
theorem c8_include_exclude_filter (opts : Options) (u : URL) :
    (shouldInclude opts u = true ↔
      ((opts.includeRe = [] ∨ ∃ re ∈ opts.includeRe, re u.render = true) ∧
       ∀ re ∈ opts.excludeRe, re u.render = false)) ∧
    (∀ re, re ∈ opts.excludeRe → re u.render = true → shouldInclude opts u = false) ∧
    ((walkRun c8Env c8Opts c8Input 3).map (fun r => (r.1, r.2.items.map Item.loc))
      = some (.ok (), [⟨"https", "e.com", "/keep", "", ""⟩])) := by
  have hiff : shouldInclude opts u = true ↔
      ((opts.includeRe = [] ∨ ∃ re ∈ opts.includeRe, re u.render = true) ∧
       ∀ re ∈ opts.excludeRe, re u.render = false) := by
    unfold shouldInclude
    simp only [Bool.and_eq_true, Bool.or_eq_true, List.isEmpty_iff, List.any_eq_true,
      Bool.not_eq_true', List.any_eq_false, Bool.not_eq_true]
  refine ⟨hiff, ?_, by rfl⟩
  intro re hmem htrue
  cases h : shouldInclude opts u with
  | false => rfl
  | true =>
    have := (hiff.mp h).2 re hmem
    rw [htrue] at this
    cases this

theorem c8_include_exclude_filter_witness :
    shouldInclude c8Opts ⟨"https", "e.com", "/keep", "", ""⟩ = true ∧
    shouldInclude c8Opts ⟨"https", "e.com", "/keep-skip", "", ""⟩ = false := by
  have h1 := c8_include_exclude_filter c8Opts ⟨"https", "e.com", "/keep", "", ""⟩
  have h2 := c8_include_exclude_filter c8Opts ⟨"https", "e.com", "/keep-skip", "", ""⟩
  refine ⟨h1.1.mpr ⟨Or.inr ⟨strContains "keep", by simp [c8Opts], by decide⟩, ?_⟩,
          h2.2.1 (strContains "skip") (by simp [c8Opts]) (by decide)⟩
  intro re hre
  simp only [c8Opts] at hre
  rw [List.mem_singleton] at hre
  subst hre
  decide

/-! Claim C9 -/

theorem tryLayoutsAux_first (tp : String → String → Option Int) (s : String) :
    ∀ (ls : List String) (i : Nat) (t : Int),
      i < ls.length → (∀ j, j < i → tp (ls.getD j "") s = none) →
      tp (ls.getD i "") s = some t → tryLayoutsAux tp s ls = some t := by
  intro ls
  induction ls with
  | nil => intro i t hi _ _; simp at hi
  | cons l rest ih =>
    intro i t hi h ht
    cases i with
    | zero =>
      rw [show (l :: rest).getD 0 "" = l from rfl] at ht
      unfold tryLayoutsAux
      rw [ht]
    | succ n =>
      have h0 := h 0 (by omega)
      rw [show (l :: rest).getD 0 "" = l from rfl] at h0
      unfold tryLayoutsAux
      rw [h0]
      exact ih n t (by simpa using hi)
        (fun j hj => by simpa using h (j + 1) (by omega))
        (by simpa using ht)

theorem tryLayoutsAux_none (tp : String → String → Option Int) (s : String) :
    ∀ ls, (∀ l ∈ ls, tp l s = none) → tryLayoutsAux tp s ls = none := by
  intro ls
  induction ls with
  | nil => intro _; rfl
  | cons l rest ih =>
    intro h
    unfold tryLayoutsAux
    rw [h l (by simp)]
    exact ih (fun x hx => h x (by simp [hx]))

/-- C9: timestamp parsing tries, in this order, the full-precision and
second-precision timezone-aware RFC 3339 layouts, the bare date, the bare
local date-time, and the two HTTP-date variants; the first layout that
parses wins; if none parses the timestamp stays unset (non-fatal).
Priority parsing attempts one floating-point parse; failure (or an empty
value) leaves it unset, and any successfully parsed value is kept without
range validation. -/
theorem c9_time_priority_parsing (tp : String → String → Option Int)
    (pf : String → Option Rat) (v p : String) :
    timeLayouts = ["2006-01-02T15:04:05.999999999Z07:00", "2006-01-02T15:04:05Z07:00",
                   "2006-01-02", "2006-01-02T15:04:05",
                   "Mon, 02 Jan 2006 15:04:05 MST", "Mon, 02 Jan 2006 15:04:05 -0700"] ∧
    (∀ i t, i < timeLayouts.length →
      (∀ j, j < i → tp (timeLayouts.getD j "") (goTrim v) = none) →
      tp (timeLayouts.getD i "") (goTrim v) = some t → goTrim v ≠ "" →
      parseTimeValue tp v = some t) ∧
    ((∀ l ∈ timeLayouts, tp l (goTrim v) = none) → parseTimeValue tp v = none) ∧
    (goTrim v = "" → parseTimeValue tp v = none) ∧
    (∀ x, goTrim p ≠ "" → pf (goTrim p) = some x → parsePriority pf p = some x) ∧
    (goTrim p ≠ "" → pf (goTrim p) = none → parsePriority pf p = none) ∧
    (goTrim p = "" → parsePriority pf p = none) := by
  refine ⟨rfl, ?_, ?_, ?_, ?_, ?_, ?_⟩
  · intro i t hi h ht hne
    unfold parseTimeValue
    dsimp only
    rw [if_neg hne]
    exact tryLayoutsAux_first tp (goTrim v) timeLayouts i t hi h ht
  · intro h
    unfold parseTimeValue
    dsimp only
    by_cases hne : goTrim v = ""
    · rw [if_pos hne]
    · rw [if_neg hne]
      exact tryLayoutsAux_none tp (goTrim v) timeLayouts h
  · intro h
    unfold parseTimeValue
    dsimp only
    rw [if_pos h]
  · intro x hne hx
    unfold parsePriority
    dsimp only
    rw [if_neg hne, hx]
  · intro hne hx
    unfold parsePriority
    dsimp only
    rw [if_neg hne, hx]
  · intro h
    unfold parsePriority
    dsimp only
    rw [if_pos h]

theorem c9_time_priority_parsing_witness :
    parseTimeValue c9Tp " 2024-01-02 " = some 1704153600000000000 ∧
    parsePriority c9Pf "7.5" = some (15 / 2 : Rat) := by
  have h := c9_time_priority_parsing c9Tp c9Pf " 2024-01-02 " "7.5"
  refine ⟨h.2.1 2 1704153600000000000 (by decide) ?_ (by rfl) (by decide),
          h.2.2.2.2.1 (15 / 2 : Rat) (by decide) (by rfl)⟩
  intro j hj
  interval_cases j <;> rfl

/-! Claim C10 -/

/-- C10: for every normalized input, seeding produces at least one
task — a sitemap-looking input seeds exactly the input at depth 0,
robots-declared sitemaps seed one task each, and otherwise the six
well-known default paths are seeded — so `initialSitemaps` is never empty
and `Walk` can never return `ErrNoSitemaps`. -/
theorem c10_seeding_never_empty (input base website : URL)
    (robots : Option RobotsRulesM) (r : RobotsRulesM) (env : Env) (opts : Options)
    (fuel : Nat) (res : Except WalkError Unit × WalkState) :
    0 < (initialSitemaps input base robots).length ∧
    (isLikelySitemapURL input = true →
      initialSitemaps input base robots = [⟨input, 0, false⟩]) ∧
    (isLikelySitemapURL input = false → 0 < r.sitemaps.length →
      (initialSitemaps input base (some r)).length = r.sitemaps.length) ∧
    (isLikelySitemapURL input = false → r.sitemaps.length = 0 →
      (initialSitemaps input base (some r)).length = 6) ∧
    (isLikelySitemapURL input = false →
      (initialSitemaps input base none).length = 6) ∧
    (walkRun env opts website fuel = some res → isNoSitemapsRes res.1 = false) := by
  refine ⟨initialSitemaps_length input base robots, ?_, ?_, ?_, ?_, ?_⟩
  · intro hlike; simp [initialSitemaps, hlike]
  · intro hlike hpos
    simp [initialSitemaps, hlike, hpos]
  · intro hlike hzero
    simp [initialSitemaps, hlike, hzero, defaultSitemaps, defaultSitemapPaths]
  · intro hlike
    simp [initialSitemaps, hlike, defaultSitemaps, defaultSitemapPaths]
  · intro hw
    rcases walkRun_shape env opts website fuel res hw with heq | ⟨st1, hl, -, -⟩
    · rw [heq]; simp [isNoSitemapsRes]
    · exact walkLoop_not_noSitemaps env opts fuel st1 res hl

theorem c10_seeding_never_empty_witness :
    0 < (initialSitemaps c1Input c1Input none).length ∧
    initialSitemaps c1Input c1Input none = [⟨c1Input, 0, false⟩] ∧
    isNoSitemapsRes (Except.error WalkError.invalidURL) = false := by
  have h := c10_seeding_never_empty c1Input c1Input ⟨"", "", "", "", ""⟩ none emptyRules
    baseEnv defaultOpts 1 (.error .invalidURL, initState [])
  exact ⟨h.1, h.2.1 (by rfl), h.2.2.2.2.2 (by rfl)⟩

end GoSitemap
